import Mathlib

/-!
Shallow embedding of `src/device_tree_reader.py` (griloHBG/device-tree-reader).

The Python module parses Device Tree Source text into a tree of nodes with
typed property values.  This file reproduces, as executable Lean functions,
the pieces of that module the claims are about:

* the primitive value parsers (`Integer`, `Phandle`, `CMacro`,
  `BinaryExpression`),
* the property-value classifiers (`StringProperty`, `StringListProperty`,
  `CellProperty`, `BinaryProperty`, `MixedProperty`, `AliasProperty`) and the
  classification chain of `parse_device_tree`,
* the node-boundary scanner (the big `re.finditer` pattern), the tree builder
  loop, and the property-extraction pass of `parse_device_tree`,
* `DeviceTreeNodeProperty.set_value` and `DeviceTreeNode.add_property`.

Modelling conventions:

* Python regular expressions are translated by hand into recursive character
  scanners.  Every class (`\w`, `\s`, ...) is read over ASCII; the reader is
  only ever run on ASCII device-tree text, and no claim depends on non-ASCII
  word characters.
* Python `int(s, base)` is modelled for plain digit strings (with the
  `0x`/`0X`/`0b`/`0B` prefix handling exactly as in the source).  CPython also
  accepts a sign and underscore separators; DTS numeric tokens use neither and
  no claim depends on them.
* Exceptions (`ValueError`, `KeyError`, `TypeError`, `IndexError`, attribute
  errors on `None`) are modelled with `Except Err`.
* Mutation is modelled by explicit state passing; the builder's
  `anytree`-style parent pointers are modelled with an arena (list of nodes
  addressed by index), children stored as index lists.
-/

set_option maxRecDepth 20000
set_option linter.unusedVariables false

namespace DTR

/-! ### Character classes (ASCII reading of the `re` classes in the source) -/

/-- `\w` (ASCII): letters, digits, underscore. -/
def isWordChar (c : Char) : Bool := c.isAlphanum || c = '_'

/-- `\s`: Python whitespace. -/
def isWsChar (c : Char) : Bool :=
  c = ' ' || c = '\t' || c = '\n' || c = '\r' || c = '\x0b' || c = '\x0c'

/-- `[\w,.+\-]`: label / phandle-name / unit-address characters
(spec v0.3 node names, as used by the scanner regex). -/
def isPhandleChar (c : Char) : Bool :=
  isWordChar c || c = ',' || c = '.' || c = '+' || c = '-'

/-- Node-name characters of the scanner regex: the phandle characters plus
the slash. -/
def isNodeNameChar (c : Char) : Bool := isPhandleChar c || c = '/'

/-- `[\w,.+?#\-]`: property-name characters. -/
def isPropNameChar (c : Char) : Bool :=
  isWordChar c || c = ',' || c = '.' || c = '+' || c = '?' || c = '#' || c = '-'

/-! ### Errors

Each constructor stands for one `raise` site (or crash) of the source. -/

inductive Err where
  /-- `ValueError('Root node ( / ) could not be found …')` -/
  | rootNotFound
  /-- `ValueError('deu ruim')`: a scanner match that is neither an open
      (`…{`) nor the exact text `};`. -/
  | deuRuim
  /-- `KeyError('This … node is only a phandle. Should this be inside a node …')` -/
  | overlayInsideNode
  /-- `AttributeError`: a method called on `current_node` while it is `None`. -/
  | noneCurrent
  /-- `KeyError(f'Property {name} already exist!')` in `add_property`. -/
  | duplicateProperty (name : String)
  /-- `TypeError` in `DeviceTreeNodeProperty.set_value` on a kind mismatch. -/
  | propertyKindConflict (name : String)
  /-- `ValueError('Why is not … an hexadecimal/binary/decimal value?')` -/
  | invalidNumericLiteral (tok : String)
  /-- `ValueError('Why is not {tok} a hexadecimal, decimal, phandle nor a
      c-style macro?! WHAT IS IT?!')` in `CellProperty.from_string`. -/
  | unrecognizedCellToken (tok : String)
  /-- `KeyError` on `place_holders[token]` when the token only starts with a
      placeholder. -/
  | placeholderKeyError (tok : String)
  /-- `IndexError` in the balanced-parenthesis scan running past the end. -/
  | parenIndexError
  /-- Fuel exhaustion in the placeholder-substitution loop (unreachable:
      every substitution strictly reduces the number of `(` characters). -/
  | substFuelExhausted
  /-- `ValueError('Are you sure that this … is a BinaryExpression?')` -/
  | notBinaryExpression (s : String)
  deriving Repr, DecidableEq

/-! ### Digit strings: the slice of Python `int(s, base)` and `format` the
source uses -/

/-- Value of one hexadecimal digit character. -/
def hexDigitVal? (c : Char) : Option Nat :=
  if '0' ≤ c ∧ c ≤ '9' then some (c.toNat - 48)
  else if 'a' ≤ c ∧ c ≤ 'f' then some (c.toNat - 87)
  else if 'A' ≤ c ∧ c ≤ 'F' then some (c.toNat - 55)
  else none

/-- Value of one digit character in `base` (digits of other bases rejected). -/
def digitVal? (base : Nat) (c : Char) : Option Nat :=
  match hexDigitVal? c with
  | some d => if d < base then some d else none
  | none => none

/-- One accumulation step of positional digit parsing. -/
def digitStep (base : Nat) (acc : Option Nat) (c : Char) : Option Nat :=
  match acc, digitVal? base c with
  | some a, some d => some (a * base + d)
  | _, _ => none

/-- `int(s, base)` on a plain digit string: at least one digit, all valid. -/
def parseDigits? (base : Nat) (cs : List Char) : Option Nat :=
  if cs.isEmpty then none else cs.foldl (digitStep base) (some 0)

/-- Digit character for `d`, uppercase for 10..15 — Python `format(v, 'X')`
uses uppercase hex digits. -/
def digitCharUpper (d : Nat) : Char :=
  if d < 10 then Char.ofNat (48 + d) else Char.ofNat (55 + d)

/-- Little-endian digit list of `n` in `base` (with fuel; `n ≤ fuel`). -/
def digitsRevUpper (base : Nat) : Nat → Nat → List Char
  | 0, _ => []
  | fuel + 1, n =>
      if n = 0 then []
      else digitCharUpper (n % base) :: digitsRevUpper base fuel (n / base)

/-- Python `f'{n:X}'` / `f'{n:b}'` / `f'{n}'`: minimal digits, `"0"` for zero. -/
def renderNat (base n : Nat) : List Char :=
  if n = 0 then ['0'] else (digitsRevUpper base n n).reverse

/-! ### `Integer` (`device_tree_reader.py` lines 286-345) -/

/-- The three values `original` may take in `Integer.__init__`. -/
inductive Radix where
  | hex | dec | bin
  deriving Repr, DecidableEq

/-- `Integer`: a parsed numeric cell token remembering its original radix. -/
structure Integer where
  value : Nat
  original_base : Radix
  deriving Repr, DecidableEq

/-- `self._hex_str = f'0x{self._value:X}'` -/
def Integer.hex_str (i : Integer) : String := ⟨'0' :: 'x' :: renderNat 16 i.value⟩

/-- `self._dec_str = f'{self._value}'` -/
def Integer.dec_str (i : Integer) : String := ⟨renderNat 10 i.value⟩

/-- `self._bin_str = f'0b{self._value:b}'` -/
def Integer.bin_str (i : Integer) : String := ⟨'0' :: 'b' :: renderNat 2 i.value⟩

/-- `self._original_string`: the re-rendering in the original radix. -/
def Integer.original_string (i : Integer) : String :=
  match i.original_base with
  | .hex => i.hex_str
  | .dec => i.dec_str
  | .bin => i.bin_str

/-- `Integer.from_string`: `0x`/`0X` prefix → hex, `0b`/`0B` → bin, else
decimal; a failed `int()` raises `ValueError`. -/
def Integer.from_string (s : String) : Except Err Integer :=
  if s.toList.take 2 = ['0', 'x'] ∨ s.toList.take 2 = ['0', 'X'] then
    match parseDigits? 16 (s.toList.drop 2) with
    | some v => .ok ⟨v, .hex⟩
    | none => .error (.invalidNumericLiteral s)
  else if s.toList.take 2 = ['0', 'b'] ∨ s.toList.take 2 = ['0', 'B'] then
    match parseDigits? 2 (s.toList.drop 2) with
    | some v => .ok ⟨v, .bin⟩
    | none => .error (.invalidNumericLiteral s)
  else
    match parseDigits? 10 s.toList with
    | some v => .ok ⟨v, .dec⟩
    | none => .error (.invalidNumericLiteral s)

/-! ### `Phandle` and `CMacro` (lines 88-187) -/

/-- `Phandle`: `&gpio2`, a "pointer" to a node. -/
structure Phandle where
  name : String
  deriving Repr, DecidableEq

/-- `Phandle.check_name`: full match of `^(?P<name>&[\w,.+\-]+)$`
(the `name` group is the whole string). -/
def Phandle.check_name (s : String) : Option String :=
  match s.toList with
  | '&' :: rest => if rest ≠ [] ∧ rest.all isPhandleChar then some s else none
  | _ => none

/-- `Phandle.from_string`. -/
def Phandle.from_string (s : String) : Option Phandle :=
  (Phandle.check_name s).map Phandle.mk

/-- `CMacro`: a C-style macro name, probably defined in a header. -/
structure CMacro where
  name : String
  deriving Repr, DecidableEq

/-- `CMacro.check_name`: full match of `^(?P<name>[a-zA-Z_][a-zA-Z0-9_]+)$`
— note the `+`: the grammar requires at least two characters. -/
def CMacro.check_name (s : String) : Option String :=
  match s.toList with
  | c :: rest =>
      if (c.isAlpha || c = '_') ∧ rest ≠ [] ∧ rest.all (fun d => d.isAlphanum || d = '_')
      then some s else none
  | [] => none

/-- `CMacro.from_string`. -/
def CMacro.from_string (s : String) : Option CMacro :=
  (CMacro.check_name s).map CMacro.mk

/-! ### `BinaryExpression` (lines 190-207) -/

/-- A parenthesized bitwise macro expression, kept as raw text plus the list
of referenced macro names. -/
structure BinaryExpression where
  original_string : String
  cmacros : List (Option CMacro)
  deriving Repr, DecidableEq

/-- `re.finditer(r'[A-Z_][A-Z0-9_]+', string)`: every maximal uppercase
identifier of at least two characters (structural fuel, unreachable for
`fuel = length`). -/
def findUpperIdents : Nat → List Char → List String
  | _, [] => []
  | 0, _ => []
  | fuel + 1, c :: rest =>
      if ('A' ≤ c && c ≤ 'Z') || c = '_' then
        let run := rest.takeWhile fun d => ('A' ≤ d && d ≤ 'Z') || d.isDigit || d = '_'
        if run.isEmpty then findUpperIdents fuel rest
        else ⟨c :: run⟩ :: findUpperIdents fuel (rest.drop run.length)
      else findUpperIdents fuel rest

/-- `BinaryExpression.from_string`: first char `(` and last char `)`, else
`ValueError`; collects `CMacro.from_string` of every uppercase identifier
hit (the source appends the `Option` results as-is). -/
def BinaryExpression.from_string (s : String) : Except Err BinaryExpression :=
  match s.toList with
  | c :: rest =>
      if c = '(' ∧ rest.getLast? = some ')' then
        .ok ⟨s, (findUpperIdents (s.toList.length + 1) s.toList).map CMacro.from_string⟩
      else .error (.notBinaryExpression s)
  | [] => .error (.notBinaryExpression s)

/-! ### `StringProperty` and `StringListProperty` (lines 235-284) -/

/-- Characters allowed inside a double-quoted string: the class `[^\n;"]`. -/
def isStrContentChar (c : Char) : Bool := c ≠ '\n' && c ≠ ';' && c ≠ '"'

/-- `StringProperty.from_string`: full match of `^"(?P<string>[^\n;"]*)"$`,
returning the `string` group. -/
def StringProperty.from_string (s : String) : Option String :=
  match s.toList with
  | '"' :: rest =>
      let content := rest.takeWhile isStrContentChar
      match rest.drop content.length with
      | ['"'] => some ⟨content⟩
      | _ => none
  | _ => none

/-- `re.findall(r'"([^\n;"]*)"', string)`: every quoted piece, in order.
At a quote whose content run is not closed by another quote the pattern
cannot match, and the search resumes one character later.  Every step of
the scan consumes at least one character, so `fuel = length` makes the
fuel cutoff unreachable (structural fuel keeps the function kernel-reducible). -/
def findallQuoted : Nat → List Char → List String
  | _, [] => []
  | 0, _ => []
  | fuel + 1, '"' :: rest =>
      let content := rest.takeWhile isStrContentChar
      (match rest.drop content.length with
        | '"' :: after => (⟨content⟩ : String) :: findallQuoted fuel after
        | _ => findallQuoted fuel rest)
  | fuel + 1, _ :: rest => findallQuoted fuel rest

/-- One `"[^\n;"]*"` piece at the head; returns the remainder after it. -/
def quotedAt (cs : List Char) : Option (List Char) :=
  match cs with
  | '"' :: rest =>
      let content := rest.takeWhile isStrContentChar
      match rest.drop content.length with
      | '"' :: after => some after
      | _ => none
  | _ => none

/-- The repeated `\s*,\s*?"[^\n;"]*"` part of the string-list pattern, run to
the exact end of the text.  `fuel` only bounds the recursion; each accepted
separator consumes at least two characters, so `cs.length + 1` is enough. -/
def stringListRest (fuel : Nat) (cs : List Char) : Bool :=
  match fuel with
  | 0 => false
  | fuel + 1 =>
      if cs.isEmpty then true
      else
        let ws1 := cs.takeWhile isWsChar
        match cs.drop ws1.length with
        | ',' :: cs2 =>
            let ws2 := cs2.takeWhile isWsChar
            match quotedAt (cs2.drop ws2.length) with
            | some after => stringListRest fuel after
            | none => false
        | _ => false

/-- Full match of `^("[^\n;"]*"\s*,\s*?)+"[^\n;"]*"$`: at least two quoted
pieces joined by `\s*,\s*` separators, nothing else. -/
def reStringListMatches (s : String) : Bool :=
  match quotedAt s.toList with
  | some after => !after.isEmpty && stringListRest (s.toList.length + 1) after
  | none => false

/-- `StringListProperty.from_string`: on a full-pattern match, the value is
`re.findall` of the single-string pattern. -/
def StringListProperty.from_string (s : String) : Option (List String) :=
  if reStringListMatches s then some (findallQuoted (s.toList.length + 1) s.toList)
  else none

/-! ### The multiline-comment erasure and the placeholder machinery of
`CellProperty.from_string` (lines 368-408) -/

/-- After an opening `/*`: the tail `(?:[^/*][^*]*\*+)*/` of the comment
pattern `r'/\*(?:[^/*][^*]*\*+)*/'`.  Returns the remainder after the
closing `/`.  Each round of the repetition consumes at least two
characters, so `fuel = length` makes the cutoff unreachable. -/
def mlCommentTail : Nat → List Char → Option (List Char)
  | _, [] => none
  | 0, _ => none
  | fuel + 1, c :: rest =>
      if c = '/' then some rest
      else if c = '*' then none
      else
        let nonstars := rest.takeWhile fun d => d ≠ '*'
        let stars := (rest.drop nonstars.length).takeWhile fun d => d = '*'
        if stars.isEmpty then none
        else mlCommentTail fuel ((rest.drop nonstars.length).drop stars.length)

/-- `re.sub(Regex.multiline_comment, '', string)`: erase every multiline
comment, keep everything else. -/
def removeMlComments : Nat → List Char → List Char
  | _, [] => []
  | 0, cs => cs
  | fuel + 1, '/' :: '*' :: rest =>
      (match mlCommentTail (rest.length + 1) rest with
        | some after => removeMlComments fuel after
        | none => '/' :: removeMlComments fuel ('*' :: rest))
  | fuel + 1, c :: rest => c :: removeMlComments fuel rest

/-! ### `CellProperty` (lines 347-408) -/

/-- Python `str.split()`: split on runs of whitespace, dropping empties
(structural fuel; each step consumes at least one character). -/
def pySplitF : Nat → List Char → List (List Char)
  | _, [] => []
  | 0, _ => []
  | fuel + 1, c :: rest =>
      if isWsChar c then pySplitF fuel rest
      else
        let run := rest.takeWhile fun d => !isWsChar d
        (c :: run) :: pySplitF fuel (rest.drop run.length)

/-- Python `str.split()`. -/
def pySplit (cs : List Char) : List (List Char) := pySplitF (cs.length + 1) cs

/-- The balanced-parenthesis counter loop of `CellProperty.from_string`:
starting one past an opening `(` with `count = 1`, step a character at a
time; when the count reaches zero the result is one past the closing `)`.
Running off the end is Python's `IndexError`. -/
def parenCountLoop : List Char → Nat → Nat → Option Nat
  | [], _, _ => none
  | c :: rest, count, pos =>
      let count' := if c = ')' then count - 1 else if c = '(' then count + 1 else count
      if count' = 0 then some (pos + 1) else parenCountLoop rest count' (pos + 1)

/-- `f'{{{{{n}}}}}'`: the placeholder key, two braces, the number, two
braces. -/
def placeholderKey (n : Nat) : String :=
  ⟨'{' :: '{' :: (renderNat 10 n ++ ['}', '}'])⟩

/-- `re.sub(re.escape(pat), rep, s)`: replace every (leftmost,
non-overlapping) occurrence of the literal `pat` (non-empty in every use)
by `rep`.  Structural fuel; the scan consumes at least one character per
step, so `fuel = length` makes the cutoff unreachable. -/
def replaceAll : Nat → List Char → List Char → List Char → List Char
  | _, [], _, _ => []
  | 0, cs, _, _ => cs
  | fuel + 1, c :: rest, pat, rep =>
      if pat.isPrefixOf (c :: rest) then
        rep ++ replaceAll fuel ((c :: rest).drop pat.length) pat rep
      else c :: replaceAll fuel rest pat rep

/-- The placeholder-substitution loop of `CellProperty.from_string`: while
the string holds a `(`, cut out the balanced parenthesized expression,
record it in the table and replace every occurrence by the next placeholder.
Each round removes at least one `(`, so `length + 1` fuel is enough; the
fuel-exhausted error is unreachable. -/
def substPlaceholders :
    Nat → String → List (String × String) → Nat →
      Except Err (String × List (String × String))
  | 0, _, _, _ => .error .substFuelExhausted
  | fuel + 1, s, table, n =>
      match s.toList.findIdx? (fun c => c = '(') with
      | none => .ok (s, table)
      | some i =>
          match parenCountLoop (s.toList.drop (i + 1)) 1 (i + 1) with
          | none => .error .parenIndexError
          | some stop =>
              let ex : String := ⟨(s.toList.drop i).take (stop - i)⟩
              let key := placeholderKey (n + 1)
              substPlaceholders fuel
                ⟨replaceAll (s.toList.length + 1) s.toList ex.toList key.toList⟩
                ((key, ex) :: table) (n + 1)

/-- A typed element of a cell array. -/
inductive CellElem where
  | int (i : Integer)
  | phandle (p : Phandle)
  | macroRef (m : CMacro)
  | expr (e : BinaryExpression)
  deriving Repr, DecidableEq

/-- `re.match(r'{{\d+}}', token)`: the token *starts with* a placeholder
(prefix match — a token may still have trailing junk, which then misses the
`place_holders` dictionary and raises `KeyError`). -/
def hasPlaceholderShape : List Char → Bool
  | '{' :: '{' :: rest =>
      let ds := rest.takeWhile Char.isDigit
      (match rest.drop ds.length with
        | '}' :: '}' :: _ => !ds.isEmpty
        | _ => false)
  | _ => false

/-- The element-classification loop of `CellProperty.from_string`: try
`Integer.from_string` (its `ValueError` is caught), then `Phandle`, then
`CMacro`, then a placeholder (substituted back as a `BinaryExpression`),
else the unrecognized-token `ValueError`. -/
def classifyCellToken (place_holders : List (String × String)) (tok : String) :
    Except Err CellElem :=
  match Integer.from_string tok with
  | .ok i => .ok (.int i)
  | .error _ =>
      match Phandle.from_string tok with
      | some p => .ok (.phandle p)
      | none =>
          match CMacro.from_string tok with
          | some m => .ok (.macroRef m)
          | none =>
              if hasPlaceholderShape tok.toList then
                match place_holders.lookup tok with
                | some ex => (BinaryExpression.from_string ex).map .expr
                | none => .error (.placeholderKeyError tok)
              else .error (.unrecognizedCellToken tok)

/-- Full match of `^<([^>]+)>\s*$`: the non-empty bracket content. -/
def reCellInner? (cs : List Char) : Option (List Char) :=
  match cs with
  | '<' :: rest =>
      let inner := rest.takeWhile fun d => d ≠ '>'
      if inner.isEmpty then none
      else
        match rest.drop inner.length with
        | '>' :: ws => if ws.all isWsChar then some inner else none
        | _ => none
  | _ => none

/-- `CellProperty.from_string`: strip multiline comments, pull parenthesized
expressions out into placeholders, match `^<([^>]+)>\s*$`, split on
whitespace and classify each token.  `none` is the regex mismatch (the
source's `return None`); errors are the uncaught `ValueError`s. -/
def CellProperty.from_string (s0 : String) : Except Err (Option (List CellElem)) := do
  let s1 : String := ⟨removeMlComments (s0.toList.length + 1) s0.toList⟩
  let (s, table) ← substPlaceholders (s1.toList.length + 1) s1 [] 0
  match reCellInner? s.toList with
  | none => return none
  | some inner =>
      let elems ← (pySplit inner).mapM fun t => classifyCellToken table ⟨t⟩
      return some elems

/-! ### `BinaryProperty` (lines 411-449) -/

/-- Full match of `^\[([^\]]+)\]\s*$`: the non-empty bracket content. -/
def reBinaryInner? (cs : List Char) : Option (List Char) :=
  match cs with
  | '[' :: rest =>
      let inner := rest.takeWhile fun d => d ≠ ']'
      if inner.isEmpty then none
      else
        match rest.drop inner.length with
        | ']' :: ws => if ws.all isWsChar then some inner else none
        | _ => none
  | _ => none

/-- One byte token of `BinaryProperty.from_string`: `0x`/`0X` prefix → hex,
else decimal; a failed `int()` raises `ValueError`. -/
def parseByteToken (tok : String) : Except Err Nat :=
  let cs := tok.toList
  if cs.take 2 = ['0', 'x'] ∨ cs.take 2 = ['0', 'X'] then
    match parseDigits? 16 (cs.drop 2) with
    | some v => .ok v
    | none => .error (.invalidNumericLiteral tok)
  else
    match parseDigits? 10 cs with
    | some v => .ok v
    | none => .error (.invalidNumericLiteral tok)

/-- `BinaryProperty.from_string`. -/
def BinaryProperty.from_string (s : String) : Except Err (Option (List Nat)) :=
  match reBinaryInner? s.toList with
  | none => .ok none
  | some inner => ((pySplit inner).mapM fun t => parseByteToken ⟨t⟩).map some

/-! ### `MixedProperty` (lines 468-516)

The pattern is
`(?:(?P<cell><\s*(?:(?:\s*&)?\w+\s*)+>)|(?P<string>"(?:[^\n;"]*)"\s*)|(?P<binary>\[\s*(?:(?:(?:0[xX][\dA-Fa-f]+)|(?:\d+))\s*)+\]))`
scanned with `re.finditer`.  Exactly one of the three named groups is set per
match (they are alternation branches), so the source's
`ValueError('More than one type … found')` guard can never fire; the final
`raise` of a bare string (after all three groups tested `None`) is equally
unreachable.  A match's text is handed to the matching class's
`from_string`, whose result — possibly `None` — is appended as-is. -/

/-- Which alternation branch matched. -/
inductive MixedKind where
  | cellK | strK | binK
  deriving Repr, DecidableEq

/-- One Python value a mixed-property element can be:
`StringProperty`, `CellProperty` or `BinaryProperty`. -/
inductive MixedPiece where
  | str (value : String)
  | cell (value : List CellElem)
  | binary (value : List Nat)
  deriving Repr, DecidableEq

/-- The `(?:(?:\s*&)?\w+\s*)+>` tail of the `cell` group: one or more
`&`-optional word tokens, each with trailing whitespace, then `>`.  The
leading `<\s*` has already consumed every preceding whitespace character, so
an iteration always starts on `&`, a word character, or the closing `>`.
Returns the total consumed length including the `>`. -/
def mixedCellGroups : Nat → List Char → Nat → Nat → Option Nat
  | _, [], _, _ => none
  | 0, _, _, _ => none
  | fuel + 1, '&' :: rest, k, acc =>
      let w := rest.takeWhile isWordChar
      if w.isEmpty then none
      else
        let ws := (rest.drop w.length).takeWhile isWsChar
        mixedCellGroups fuel ((rest.drop w.length).drop ws.length) (k + 1)
          (acc + 1 + w.length + ws.length)
  | fuel + 1, c :: rest, k, acc =>
      if isWordChar c then
        let w := rest.takeWhile isWordChar
        let ws := (rest.drop w.length).takeWhile isWsChar
        mixedCellGroups fuel ((rest.drop w.length).drop ws.length) (k + 1)
          (acc + 1 + w.length + ws.length)
      else if c = '>' ∧ 1 ≤ k then some (acc + 1)
      else none

/-- The `cell` group at the head of `cs`: `<\s*(?:(?:\s*&)?\w+\s*)+>`. -/
def mixedCellAt (cs : List Char) : Option Nat :=
  match cs with
  | '<' :: rest =>
      let ws := rest.takeWhile isWsChar
      mixedCellGroups (rest.length + 1) (rest.drop ws.length) 0 (1 + ws.length)
  | _ => none

/-- The `string` group at the head of `cs`: `"(?:[^\n;"]*)"\s*` — note the
trailing `\s*` is part of the captured group. -/
def mixedStrAt (cs : List Char) : Option Nat :=
  match cs with
  | '"' :: rest =>
      let content := rest.takeWhile isStrContentChar
      (match rest.drop content.length with
        | '"' :: after => some (1 + content.length + 1 + (after.takeWhile isWsChar).length)
        | _ => none)
  | _ => none

/-- `c` is a hexadecimal digit (`[\dA-Fa-f]`). -/
def isHexDigitChar (c : Char) : Bool := (hexDigitVal? c).isSome

/-- One token of the `binary` group: `(?:0[xX][\dA-Fa-f]+)|(?:\d+)`, the hex
alternative tried first.  When `0x` is not followed by a hex digit the hex
alternative fails and `\d+` consumes just the `0`. -/
def mixedBinToken (cs : List Char) : Option Nat :=
  match cs with
  | '0' :: 'x' :: rest =>
      if (rest.takeWhile isHexDigitChar).isEmpty then some 1
      else some (2 + (rest.takeWhile isHexDigitChar).length)
  | '0' :: 'X' :: rest =>
      if (rest.takeWhile isHexDigitChar).isEmpty then some 1
      else some (2 + (rest.takeWhile isHexDigitChar).length)
  | _ =>
      if (cs.takeWhile Char.isDigit).isEmpty then none
      else some (cs.takeWhile Char.isDigit).length

/-- The `(?:(?:…)\s*)+\]` tail of the `binary` group, after `[\s*`: one or
more byte tokens, each with trailing whitespace, then `]`.  Returns the
total consumed length including the `]`. -/
def mixedBinGroups : Nat → List Char → Nat → Nat → Option Nat
  | _, ']' :: _, k, acc => if 1 ≤ k then some (acc + 1) else none
  | _, [], _, _ => none
  | 0, _, _, _ => none
  | fuel + 1, c :: rest, k, acc =>
      match mixedBinToken (c :: rest) with
      | none => none
      | some t =>
          let ws := ((c :: rest).drop t).takeWhile isWsChar
          mixedBinGroups fuel (((c :: rest).drop t).drop ws.length) (k + 1)
            (acc + t + ws.length)

/-- The `binary` group at the head of `cs`:
`\[\s*(?:(?:(?:0[xX][\dA-Fa-f]+)|(?:\d+))\s*)+\]`. -/
def mixedBinAt (cs : List Char) : Option Nat :=
  match cs with
  | '[' :: rest =>
      let ws := rest.takeWhile isWsChar
      mixedBinGroups (rest.length + 1) (rest.drop ws.length) 0 (1 + ws.length)
  | _ => none

/-- The whole alternation at the head of `cs`: `cell`, then `string`, then
`binary` (Python tries alternatives left to right). -/
def mixedMatchAt (cs : List Char) : Option (Nat × MixedKind) :=
  match mixedCellAt cs with
  | some n => some (n, .cellK)
  | none =>
      match mixedStrAt cs with
      | some n => some (n, .strK)
      | none =>
          match mixedBinAt cs with
          | some n => some (n, .binK)
          | none => none

/-- `re.finditer` of the mixed-property pattern: leftmost non-overlapping
matches, resuming after each match (every match consumes at least one
character, so consuming the matched head keeps the recursion shrinking). -/
def mixedFinditer : Nat → List Char → List (List Char × MixedKind)
  | _, [] => []
  | 0, _ => []
  | fuel + 1, c :: rest =>
      match mixedMatchAt (c :: rest) with
      | some (n, k) =>
          ((c :: rest).take n, k) :: mixedFinditer fuel (rest.drop (n - 1))
      | none => mixedFinditer fuel rest

/-- `MixedProperty.from_string`: build the element list from the finditer
matches.  `re.finditer` returns a (truthy) iterator even with zero matches,
and a `MixedProperty` instance is always truthy, so — unlike the other
`from_string` classifiers — this one never reports "no match": the empty
match list yields the empty `MixedProperty`. -/
def MixedProperty.from_string (s : String) : Except Err (List (Option MixedPiece)) :=
  (mixedFinditer (s.toList.length + 1) s.toList).mapM fun m =>
    match m.2 with
    | .cellK => (CellProperty.from_string ⟨m.1⟩).map (Option.map .cell)
    | .strK => pure ((StringProperty.from_string ⟨m.1⟩).map .str)
    | .binK => (BinaryProperty.from_string ⟨m.1⟩).map (Option.map .binary)

/-! ### The property-value classification chain of `parse_device_tree`
(lines 1003-1057) -/

/-- `AliasProperty` is `Phandle` with a different docstring. -/
def AliasProperty.from_string (s : String) : Option Phandle :=
  Phandle.from_string s

/-- The Python value stored for one property:
`StringProperty | StringListProperty | CellProperty | BinaryProperty |
MixedProperty | EmptyProperty | AliasProperty`. -/
inductive NodePropertyValue where
  | str (value : String)
  | strList (value : List String)
  | cell (value : List CellElem)
  | binary (value : List Nat)
  | mixed (value : List (Option MixedPiece))
  | emptyProp
  | aliasProp (name : String)
  deriving Repr, DecidableEq

/-- The Python class of a `NodePropertyValue` (what `type(value)` and the
`isinstance` check of `set_value` see). -/
inductive PropKind where
  | str | strList | cell | binary | mixed | emptyProp | aliasProp
  deriving Repr, DecidableEq

/-- `type(value)`. -/
def NodePropertyValue.kind : NodePropertyValue → PropKind
  | .str _ => .str
  | .strList _ => .strList
  | .cell _ => .cell
  | .binary _ => .binary
  | .mixed _ => .mixed
  | .emptyProp => .emptyProp
  | .aliasProp _ => .aliasProp

/-- The classification chain of `parse_device_tree` for one `key = value;`
right-hand side: `StringProperty`, then `StringListProperty`, then
`CellProperty`, then `AliasProperty`, then `MixedProperty`.  The source ends
with `raise ValueError('If you got here, something if wrong or is not
supported …')`, but that line is unreachable: `MixedProperty.from_string`
always returns a truthy `MixedProperty` object (see above), so the chain
never falls through. -/
def classifyValue (value : String) : Except Err NodePropertyValue :=
  match StringProperty.from_string value with
  | some s => .ok (.str s)
  | none =>
      match StringListProperty.from_string value with
      | some xs => .ok (.strList xs)
      | none =>
          match CellProperty.from_string value with
          | .error e => .error e
          | .ok (some xs) => .ok (.cell xs)
          | .ok none =>
              match AliasProperty.from_string value with
              | some _ => .ok (.aliasProp value)
              | none => (MixedProperty.from_string value).map .mixed

/-! ### `ValueElement` and `DeviceTreeNodeProperty` (lines 533-578)

`ValueElement.file_path` is dropped: the embedding parses an in-memory
buffer, and the file identifier is provenance only.  `single_line` is
derived (`len(line_number) == 1`) and also omitted. -/

/-- One history record of a property. -/
structure ValueElement where
  value : NodePropertyValue
  line_number : List Int
  key_span : List Nat
  value_span : List Nat
  deriving Repr, DecidableEq

/-- One property slot: current value plus oldest-first history. -/
structure DeviceTreeNodeProperty where
  name : String
  value : NodePropertyValue
  history_list : List ValueElement
  deriving Repr, DecidableEq

/-- `DeviceTreeNodeProperty.__init__`: a one-record history. -/
def DeviceTreeNodeProperty.mkNew (name : String) (value : NodePropertyValue)
    (line_number : List Int) (key_span value_span : List Nat) :
    DeviceTreeNodeProperty :=
  ⟨name, value, [⟨value, line_number, key_span, value_span⟩]⟩

/-- `DeviceTreeNodeProperty.set_value`: on a kind match the source executes
`self._value = self._value` and appends `ValueElement(self._value, …)` —
both carry the *old* value, exactly as written; on a mismatch it raises
`TypeError`. -/
def DeviceTreeNodeProperty.set_value (p : DeviceTreeNodeProperty)
    (value : NodePropertyValue) (line_number : List Int)
    (key_span value_span : List Nat) : Except Err DeviceTreeNodeProperty :=
  if value.kind = p.value.kind then
    .ok { p with
          value := p.value,
          history_list := p.history_list ++ [⟨p.value, line_number, key_span, value_span⟩] }
  else .error (.propertyKindConflict p.name)

/-! ### `DeviceTreeNode` (lines 581-730)

The `anytree` parent pointers are modelled with an arena: nodes live in a
list addressed by index, `parentIdx` is the non-owning back-reference and
`childIdxs` the ordered children.  Spans are `Int` pairs initialised to
`(-1, -1)` exactly as `self._properties_span = [-1, -1]` and
`self._node_span = [-1, -1]`. -/

/-- One `{ … }` scope. -/
structure DeviceTreeNode where
  name : String
  is_overlay : Bool := false
  phandle : Option String := none
  at_ : Option String := none
  parentIdx : Option Nat := none
  childIdxs : List Nat := []
  properties_span : Int × Int := (-1, -1)
  node_span : Int × Int := (-1, -1)
  properties : List (String × DeviceTreeNodeProperty) := []
  deriving Repr, DecidableEq

/-- `DeviceTreeNode.add_property`: a key already present raises
`KeyError(f'Property {name} already exist!')` before anything is written;
otherwise a fresh `DeviceTreeNodeProperty` is inserted (dict insertion
order = append). -/
def DeviceTreeNode.add_property (nd : DeviceTreeNode) (name : String)
    (value : NodePropertyValue) (line_number : List Int)
    (key_span value_span : List Nat) : Except Err DeviceTreeNode :=
  if (nd.properties.lookup name).isSome then .error (.duplicateProperty name)
  else .ok { nd with properties := nd.properties ++
      [(name, DeviceTreeNodeProperty.mkNew name value line_number key_span value_span)] }

/-! ### The node-boundary scanner of `parse_device_tree` (lines 825-827)

The pattern (one `re.finditer` over the whole buffer) is
`((?:(&(?P<phandle_only>[\w,.+\-]+))|((?:(?P<phandle>[\w,.+\-]+) *: *)?(?P<name>[\w,.+/\-]+)(?:@(?P<at>[\w,.+\-]+))?)) *{)|( *};)`.
All quantifiers here are effectively deterministic: the character classes of
adjacent pieces are disjoint, so maximal runs need no backtracking. -/

/-- The captured groups of one scanner match. -/
inductive ScopeEv where
  | openEv (phandle_only : Option String) (phandle : Option String)
      (name : Option String) (at_ : Option String)
  | closeEv (leading : Nat)
  deriving Repr, DecidableEq

/-- One scanner match with its span. -/
structure ScopeMatch where
  start : Nat
  stop : Nat
  ev : ScopeEv
  deriving Repr, DecidableEq

/-- Alternative (i) of the open pattern: `&(?P<phandle_only>[\w,.+\-]+) *{`.
The `&` sits outside the capture group: the captured name has no `&`. -/
def matchOpenRef (cs : List Char) : Option (Nat × ScopeEv) :=
  match cs with
  | '&' :: rest =>
      let run := rest.takeWhile isPhandleChar
      if run.isEmpty then none
      else
        let sp := (rest.drop run.length).takeWhile fun c => c = ' '
        (match (rest.drop run.length).drop sp.length with
          | '{' :: _ =>
              some (1 + run.length + sp.length + 1, .openEv (some ⟨run⟩) none none none)
          | _ => none)
  | _ => none

/-- The `(?P<name>[\w,.+/\-]+)(?:@(?P<at>[\w,.+\-]+))? *{` core of
alternative (ii): consumed length, name and unit-address. -/
def matchOpenCore (cs : List Char) : Option (Nat × String × Option String) :=
  let nm := cs.takeWhile isNodeNameChar
  if nm.isEmpty then none
  else
    match cs.drop nm.length with
    | '@' :: rest2 =>
        let av := rest2.takeWhile isPhandleChar
        if av.isEmpty then none
        else
          let sp := (rest2.drop av.length).takeWhile fun c => c = ' '
          (match (rest2.drop av.length).drop sp.length with
            | '{' :: _ =>
                some (nm.length + 1 + av.length + sp.length + 1, ⟨nm⟩, some ⟨av⟩)
            | _ => none)
    | rest =>
        let sp := rest.takeWhile fun c => c = ' '
        (match rest.drop sp.length with
          | '{' :: _ => some (nm.length + sp.length + 1, ⟨nm⟩, none)
          | _ => none)

/-- Alternative (ii): optional `(?P<phandle>[\w,.+\-]+) *: *` label, then
the core; the labelled reading is tried first. -/
def matchOpenNamed (cs : List Char) : Option (Nat × ScopeEv) :=
  let lbl := cs.takeWhile isPhandleChar
  let withLabel :=
    if lbl.isEmpty then none
    else
      let sp1 := (cs.drop lbl.length).takeWhile fun c => c = ' '
      match (cs.drop lbl.length).drop sp1.length with
      | ':' :: rest =>
          let sp2 := rest.takeWhile fun c => c = ' '
          (matchOpenCore (rest.drop sp2.length)).map fun r =>
            (lbl.length + sp1.length + 1 + sp2.length + r.1,
              .openEv none (some ⟨lbl⟩) (some r.2.1) r.2.2)
      | _ => none
  match withLabel with
  | some r => some r
  | none => (matchOpenCore cs).map fun r => (r.1, .openEv none none (some r.2.1) r.2.2)

/-- The close alternative ` *};`: a run of plain spaces (the pattern uses a
literal space, not `\s`), then `};`. -/
def matchCloseAt (cs : List Char) : Option (Nat × ScopeEv) :=
  let sp := cs.takeWhile fun c => c = ' '
  match cs.drop sp.length with
  | '}' :: ';' :: _ => some (sp.length + 2, .closeEv sp.length)
  | _ => none

/-- First applicable alternative at the head of `cs`. -/
def tryMatchAt (cs : List Char) : Option (Nat × ScopeEv) :=
  match matchOpenRef cs with
  | some r => some r
  | none =>
      match matchOpenNamed cs with
      | some r => some r
      | none => matchCloseAt cs

/-- `re.finditer` of the scope pattern: leftmost matches, scanning resumes
after each match (every match consumes at least one character; structural
fuel with the usual unreachable cutoff at `fuel = length`). -/
def scanFrom : Nat → List Char → Nat → List ScopeMatch
  | _, [], _ => []
  | 0, _, _ => []
  | fuel + 1, c :: rest, p =>
      match tryMatchAt (c :: rest) with
      | some (n, ev) => ⟨p, p + n, ev⟩ :: scanFrom fuel (rest.drop (n - 1)) (p + n)
      | none => scanFrom fuel rest (p + 1)

/-! ### The tree-builder loop of `parse_device_tree` (lines 849-932) -/

/-- The loop state: all nodes created so far, the index `current_node`
points at, and `root_nodes`. -/
structure BState where
  arena : List DeviceTreeNode
  current : Option Nat
  roots : List Nat
  deriving Repr

/-- One iteration of `for match in node_scopes`.  The dispatch mirrors the
source: a match ending in `{` is an open; a match whose whole text is
exactly `};` is a close; anything else — which is precisely a close with
spaces before the `};`, since ` *};` is the only other alternative — hits
`raise ValueError('deu ruim')`. -/
def stepMatch (st : BState) (m : ScopeMatch) : Except Err BState :=
  match m.ev with
  | .openEv phandle_only phandle name at_ =>
      match phandle_only with
      | none =>
          if name = some "/" then
            -- the root node: no parent, appended to `root_nodes`;
            -- `set_properties_span_start` and `set_node_span_start` both
            -- receive the match end
            let nd : DeviceTreeNode :=
              { name := "/", phandle := phandle, at_ := at_,
                properties_span := ((m.stop : Int), -1),
                node_span := ((m.stop : Int), -1) }
            .ok { arena := st.arena ++ [nd], current := some st.arena.length,
                  roots := st.roots ++ [st.arena.length] }
          else
            -- a plain child node: reading `current_node` while it is None
            -- is an AttributeError
            match st.current with
            | none => .error .noneCurrent
            | some j =>
                match st.arena.get? j with
                | none => .error .noneCurrent
                | some parent =>
                    let parent1 :=
                      if parent.properties_span.2 = -1 then
                        { parent with properties_span :=
                            (parent.properties_span.1, (m.start : Int)) }
                      else parent
                    let parent2 :=
                      { parent1 with childIdxs := parent1.childIdxs ++ [st.arena.length] }
                    let nd : DeviceTreeNode :=
                      { name := name.getD "", phandle := phandle, at_ := at_,
                        parentIdx := some j,
                        properties_span := ((m.stop : Int), -1),
                        node_span := ((m.stop : Int), -1) }
                    .ok { arena := st.arena.set j parent2 ++ [nd],
                          current := some st.arena.length, roots := st.roots }
      | some po =>
          -- `&name {` while a node is open raises KeyError; at top level the
          -- overlay node is created with the *captured* name (no `&`)
          match st.current with
          | some _ => .error .overlayInsideNode
          | none =>
              let nd : DeviceTreeNode :=
                { name := po, is_overlay := true,
                  properties_span := ((m.stop : Int), -1),
                  node_span := ((m.stop : Int), -1) }
              .ok { arena := st.arena ++ [nd], current := some st.arena.length,
                    roots := st.roots ++ [st.arena.length] }
  | .closeEv leading =>
      if leading = 0 then
        match st.current with
        | none => .error .noneCurrent
        | some j =>
            match st.arena.get? j with
            | none => .error .noneCurrent
            | some nd =>
                let nd1 :=
                  if nd.properties_span.2 = -1 then
                    { nd with properties_span := (nd.properties_span.1, (m.start : Int)) }
                  else nd
                let nd2 := { nd1 with node_span := (nd1.node_span.1, (m.start : Int)) }
                .ok { arena := st.arena.set j nd2, current := nd.parentIdx,
                      roots := st.roots }
      else .error .deuRuim

/-- The whole `for match in node_scopes` loop. -/
def buildLoop : List ScopeMatch → BState → Except Err BState
  | [], st => .ok st
  | m :: ms, st => do buildLoop ms (← stepMatch st m)

/-! ### The property-extraction pass of `parse_device_tree` (lines 955-1075) -/

/-- Python slice `s[a:b]` (character indices; a negative bound counts from
the end, results clamped). -/
def pySlice (cs : List Char) (a b : Int) : List Char :=
  let n : Int := cs.length
  let a' := if a < 0 then max 0 (n + a) else min a n
  let b' := if b < 0 then max 0 (n + b) else min b n
  (cs.take b'.toNat).drop a'.toNat

/-- `get_line_number`: 0 for empty text, else 1 + the number of newlines. -/
def get_line_number (cs : List Char) : Nat :=
  if cs.isEmpty then 0 else 1 + cs.countP fun c => c = '\n'

/-- One match of `(?P<key>[\w,.+?#\-]+)\s*=\s*(?P<value>[^;]+);` at the head
of `cs`: `(total, key, ws1, ws2, value)` lengths.  When the `\s*` after `=`
runs straight into the `;`, the regex backtracks and `[^;]+` takes the last
whitespace character. -/
def kvMatchAt (cs : List Char) : Option (Nat × Nat × Nat × Nat × Nat) :=
  let key := cs.takeWhile isPropNameChar
  if key.isEmpty then none
  else
    let r1 := cs.drop key.length
    let ws1 := r1.takeWhile isWsChar
    match r1.drop ws1.length with
    | '=' :: r2 =>
        let ws2 := r2.takeWhile isWsChar
        let v := (r2.drop ws2.length).takeWhile fun c => c ≠ ';'
        if v.isEmpty then
          if ws2.isEmpty then none
          else
            (match r2.drop ws2.length with
              | ';' :: _ =>
                  some (key.length + ws1.length + 1 + ws2.length + 1,
                    key.length, ws1.length, ws2.length - 1, 1)
              | _ => none)
        else
          (match (r2.drop ws2.length).drop v.length with
            | ';' :: _ =>
                some (key.length + ws1.length + 1 + ws2.length + v.length + 1,
                  key.length, ws1.length, ws2.length, v.length)
            | _ => none)
    | _ => none

/-- Spans (relative to the property block) of one `key = value;` match. -/
structure KvMatch where
  keyStart : Nat
  keyStop : Nat
  valueStart : Nat
  valueStop : Nat
  deriving Repr, DecidableEq

/-- `re.finditer` of the key/value pattern over the property block. -/
def kvFinditer : Nat → List Char → Nat → List KvMatch
  | _, [], _ => []
  | 0, _, _ => []
  | fuel + 1, c :: rest, pos =>
      match kvMatchAt (c :: rest) with
      | some (n, klen, w1, w2, vlen) =>
          { keyStart := pos, keyStop := pos + klen,
            valueStart := pos + klen + w1 + 1 + w2,
            valueStop := pos + klen + w1 + 1 + w2 + vlen } ::
            kvFinditer fuel (rest.drop (n - 1)) (pos + n)
      | none => kvFinditer fuel rest (pos + 1)

/-- One match of `\n\s*(?P<property_name>[\w,.+?#\-]+);` at the head of
`cs`: `(total, ws, name)` lengths.  Note the mandatory leading newline. -/
def emptyMatchAt (cs : List Char) : Option (Nat × Nat × Nat) :=
  match cs with
  | '\n' :: rest =>
      let ws := rest.takeWhile isWsChar
      let nm := (rest.drop ws.length).takeWhile isPropNameChar
      if nm.isEmpty then none
      else
        (match (rest.drop ws.length).drop nm.length with
          | ';' :: _ => some (1 + ws.length + nm.length + 1, ws.length, nm.length)
          | _ => none)
  | _ => none

/-- Span (relative to the property block) of one marker-property match. -/
structure EmptyMatch where
  nameStart : Nat
  nameStop : Nat
  deriving Repr, DecidableEq

/-- `re.finditer` of the marker-property pattern over the property block. -/
def emptyFinditer : Nat → List Char → Nat → List EmptyMatch
  | _, [], _ => []
  | 0, _, _ => []
  | fuel + 1, c :: rest, pos =>
      match emptyMatchAt (c :: rest) with
      | some (n, wsl, nml) =>
          { nameStart := pos + 1 + wsl, nameStop := pos + 1 + wsl + nml } ::
            emptyFinditer fuel (rest.drop (n - 1)) (pos + n)
      | none => emptyFinditer fuel rest (pos + 1)

/-- The per-node extraction: slice the property block, run the key/value
pass (classifying every right-hand side), then the marker pass.  Only the
`properties` field changes.  (The `#if`-directive scan of the source records
diagnostics and alters nothing; it is not modelled.) -/
def extractNode (contents : List Char) (nd0 : DeviceTreeNode) :
    Except Err DeviceTreeNode := do
  let properties_lines := pySlice contents nd0.properties_span.1 nd0.properties_span.2
  let carret : Nat := nd0.properties_span.1.toNat
  let line_number_offset : Int :=
    get_line_number (pySlice contents 0 ((carret : Int) - 1))
  let nd1 ← (kvFinditer (properties_lines.length + 1) properties_lines 0).foldlM
    (fun acc kv => do
      let key : String := ⟨(properties_lines.drop kv.keyStart).take (kv.keyStop - kv.keyStart)⟩
      let value : String :=
        ⟨(properties_lines.drop kv.valueStart).take (kv.valueStop - kv.valueStart)⟩
      let key_span := [kv.keyStart + carret, kv.keyStop + carret]
      let value_span := [kv.valueStart + carret, kv.valueStop + carret]
      let line_number_span : List Int :=
        [line_number_offset + get_line_number (properties_lines.take kv.keyStart) - 1,
         line_number_offset + get_line_number (properties_lines.take (kv.valueStop - 1)) - 1]
      let v ← classifyValue value
      acc.add_property key v line_number_span key_span value_span) nd0
  let nd2 ← (emptyFinditer (properties_lines.length + 1) properties_lines 0).foldlM
    (fun acc em => do
      let property_name : String :=
        ⟨(properties_lines.drop em.nameStart).take (em.nameStop - em.nameStart)⟩
      let property_span := [em.nameStart + carret, em.nameStop + carret]
      let line_number_span : List Int :=
        [line_number_offset + get_line_number (properties_lines.take em.nameStart) - 1,
         line_number_offset + get_line_number (properties_lines.take (em.nameStop - 1)) - 1]
      acc.add_property property_name .emptyProp line_number_span property_span
        property_span) nd1
  return nd2

/-! ### `parse_device_tree` (lines 803-1080) -/

/-- The extraction pass over all nodes, first error wins (the source
iterates the trees in preorder and raises out of the loop; the arena holds
the same nodes in creation order, and extraction is per-node, so the
success results coincide). -/
def mapExtract (contents : List Char) : List DeviceTreeNode → Except Err (List DeviceTreeNode)
  | [] => .ok []
  | nd :: rest => do
      let nd' ← extractNode contents nd
      let rest' ← mapExtract contents rest
      return nd' :: rest'

/-- `re.search` for a literal: does `pat` occur anywhere in `hay`? -/
def containsSub (hay pat : List Char) : Bool :=
  match hay with
  | [] => pat.isEmpty
  | _ :: rest => pat.isPrefixOf hay || containsSub rest pat

/-- `parse_device_tree` on an in-memory buffer: require the literal `/ {`
somewhere (else `RootNotFound`), scan and build all scopes, then run the
extraction pass over every node.  The result is `(root_nodes, arena)`:
`root_nodes` as indices into the arena.  The source walks nodes root by
root in preorder; the arena holds exactly those nodes in creation order,
and each node's extraction is independent, so the success results agree.
Nodes the builder left unclosed keep `-1` span ends — the source performs
no balance check at the end of the scan. -/
def parse_device_tree (contents : String) :
    Except Err (List Nat × List DeviceTreeNode) := do
  let cs := contents.toList
  if containsSub cs ['/', ' ', '{'] then
    let st ← buildLoop (scanFrom (cs.length + 1) cs 0) ⟨[], none, []⟩
    let arena ← mapExtract cs st.arena
    return (st.roots, arena)
  else .error .rootNotFound

/-! ## Supporting lemmas -/

/-- The radix `Integer.from_string` assigns, read off the two-character
prefix. -/
def radixOfPrefix (s : String) : Radix :=
  if s.toList.take 2 = ['0', 'x'] ∨ s.toList.take 2 = ['0', 'X'] then .hex
  else if s.toList.take 2 = ['0', 'b'] ∨ s.toList.take 2 = ['0', 'B'] then .bin
  else .dec

theorem digitVal_digitCharUpper (base d : Nat) (hd : d < base) (hb : base ≤ 16) :
    digitVal? base (digitCharUpper d) = some d := by
  have h16 : d < 16 := lt_of_lt_of_le hd hb
  interval_cases d <;> simp [digitCharUpper, digitVal?, hexDigitVal?, hd]

theorem foldl_digitsRevUpper (base : Nat) (hb : 1 < base) (hb16 : base ≤ 16) :
    ∀ fuel m, m ≤ fuel →
      List.foldl (digitStep base) (some 0) (digitsRevUpper base fuel m).reverse =
        some m := by
  intro fuel
  induction fuel with
  | zero =>
      intro m hm
      interval_cases m
      simp [digitsRevUpper]
  | succ fuel ih =>
      intro m hm
      cases m with
      | zero => simp [digitsRevUpper]
      | succ m =>
          rw [digitsRevUpper, if_neg (by omega : ¬m + 1 = 0)]
          rw [List.reverse_cons, List.foldl_append]
          have hdiv : (m + 1) / base ≤ fuel := by
            have h1 : (m + 1) / base < m + 1 := Nat.div_lt_self (by omega) hb
            omega
          rw [ih _ hdiv]
          have hv := digitVal_digitCharUpper base ((m + 1) % base)
            (Nat.mod_lt _ (by omega)) hb16
          show digitStep base (some ((m + 1) / base)) (digitCharUpper ((m + 1) % base)) =
            some (m + 1)
          unfold digitStep
          rw [hv]
          show some ((m + 1) / base * base + (m + 1) % base) = some (m + 1)
          rw [Nat.div_add_mod']

theorem parseDigits_renderNat (base : Nat) (hb : 1 < base) (hb16 : base ≤ 16)
    (n : Nat) : parseDigits? base (renderNat base n) = some n := by
  unfold renderNat
  by_cases hn : n = 0
  · subst hn
    rw [if_pos rfl, parseDigits?,
      if_neg (by decide : ¬(['0'] : List Char).isEmpty = true)]
    show digitStep base (some 0) '0' = some 0
    have h0 : digitVal? base '0' = some 0 := by
      show (if 0 < base then some 0 else none) = some 0
      rw [if_pos (by omega : (0 : Nat) < base)]
    unfold digitStep
    rw [h0]
    show some (0 * base + 0) = some 0
    simp
  · rw [if_neg hn, parseDigits?]
    obtain ⟨m, rfl⟩ : ∃ m, n = m + 1 := ⟨n - 1, by omega⟩
    have hne : ¬((digitsRevUpper base (m + 1) (m + 1)).reverse).isEmpty = true := by
      rw [digitsRevUpper, if_neg (by omega : ¬m + 1 = 0)]
      simp
    rw [if_neg hne]
    exact foldl_digitsRevUpper base hb hb16 (m + 1) (m + 1) (le_refl _)

theorem digitsRevUpper10_isDigit :
    ∀ fuel m c, c ∈ digitsRevUpper 10 fuel m → c.isDigit = true := by
  intro fuel
  induction fuel with
  | zero => intro m c hc; simp [digitsRevUpper] at hc
  | succ fuel ih =>
      intro m c hc
      cases m with
      | zero => simp [digitsRevUpper] at hc
      | succ m =>
          rw [digitsRevUpper, if_neg (by omega : ¬m + 1 = 0)] at hc
          rcases List.mem_cons.mp hc with h | h
          · subst h
            have hlt : (m + 1) % 10 < 10 := Nat.mod_lt _ (by omega)
            set d := (m + 1) % 10 with hd
            clear_value d
            interval_cases d <;> decide
          · exact ih _ c h

theorem renderNat10_isDigit (v : Nat) :
    ∀ c ∈ renderNat 10 v, c.isDigit = true := by
  intro c hc
  unfold renderNat at hc
  by_cases hv : v = 0
  · simp [hv] at hc
    subst hc
    decide
  · rw [if_neg hv, List.mem_reverse] at hc
    exact digitsRevUpper10_isDigit v v c hc

theorem take2_not_prefixed_of_digits (l : List Char)
    (hl : ∀ c ∈ l, c.isDigit = true) (ch : Char) (hch : ch.isDigit = false) :
    l.take 2 ≠ ['0', ch] := by
  intro h
  have hmem : ch ∈ l.take 2 := by rw [h]; simp
  have := hl ch (List.take_subset 2 l hmem)
  rw [this] at hch
  cases hch

theorem Integer_roundtrip (i : Integer) :
    Integer.from_string i.original_string = .ok i := by
  obtain ⟨v, b⟩ := i
  cases b with
  | hex =>
      show Integer.from_string ⟨'0' :: 'x' :: renderNat 16 v⟩ = .ok ⟨v, .hex⟩
      unfold Integer.from_string
      rw [show (⟨'0' :: 'x' :: renderNat 16 v⟩ : String).toList =
        '0' :: 'x' :: renderNat 16 v from rfl]
      rw [if_pos (Or.inl (by simp : ('0' :: 'x' :: renderNat 16 v).take 2 = ['0', 'x']))]
      rw [show ('0' :: 'x' :: renderNat 16 v).drop 2 = renderNat 16 v from rfl]
      rw [parseDigits_renderNat 16 (by omega) (by omega) v]
  | bin =>
      show Integer.from_string ⟨'0' :: 'b' :: renderNat 2 v⟩ = .ok ⟨v, .bin⟩
      unfold Integer.from_string
      rw [show (⟨'0' :: 'b' :: renderNat 2 v⟩ : String).toList =
        '0' :: 'b' :: renderNat 2 v from rfl]
      have htake : ('0' :: 'b' :: renderNat 2 v).take 2 = ['0', 'b'] := by simp
      rw [if_neg (by rw [htake]; decide), if_pos (Or.inl htake)]
      rw [show ('0' :: 'b' :: renderNat 2 v).drop 2 = renderNat 2 v from rfl]
      rw [parseDigits_renderNat 2 (by omega) (by omega) v]
  | dec =>
      show Integer.from_string ⟨renderNat 10 v⟩ = .ok ⟨v, .dec⟩
      unfold Integer.from_string
      rw [show (⟨renderNat 10 v⟩ : String).toList = renderNat 10 v from rfl]
      have hdig := renderNat10_isDigit v
      have h1 : ¬((renderNat 10 v).take 2 = ['0', 'x'] ∨
          (renderNat 10 v).take 2 = ['0', 'X']) := by
        rintro (h | h)
        · exact take2_not_prefixed_of_digits _ hdig 'x' (by decide) h
        · exact take2_not_prefixed_of_digits _ hdig 'X' (by decide) h
      have h2 : ¬((renderNat 10 v).take 2 = ['0', 'b'] ∨
          (renderNat 10 v).take 2 = ['0', 'B']) := by
        rintro (h | h)
        · exact take2_not_prefixed_of_digits _ hdig 'b' (by decide) h
        · exact take2_not_prefixed_of_digits _ hdig 'B' (by decide) h
      rw [if_neg h1, if_neg h2, parseDigits_renderNat 10 (by omega) (by omega) v]

theorem Integer_radix_rule (s : String) (i : Integer)
    (h : Integer.from_string s = .ok i) : i.original_base = radixOfPrefix s := by
  unfold Integer.from_string at h
  unfold radixOfPrefix
  by_cases c1 : s.toList.take 2 = ['0', 'x'] ∨ s.toList.take 2 = ['0', 'X']
  · rw [if_pos c1] at h
    rw [if_pos c1]
    cases hp : parseDigits? 16 (s.toList.drop 2) with
    | none => rw [hp] at h; cases h
    | some v => rw [hp] at h; cases h; rfl
  · rw [if_neg c1] at h
    rw [if_neg c1]
    by_cases c2 : s.toList.take 2 = ['0', 'b'] ∨ s.toList.take 2 = ['0', 'B']
    · rw [if_pos c2] at h
      rw [if_pos c2]
      cases hp : parseDigits? 2 (s.toList.drop 2) with
      | none => rw [hp] at h; cases h
      | some v => rw [hp] at h; cases h; rfl
    · rw [if_neg c2] at h
      rw [if_neg c2]
      cases hp : parseDigits? 10 s.toList with
      | none => rw [hp] at h; cases h
      | some v => rw [hp] at h; cases h; rfl

theorem digitVal10_none_of_alpha (c : Char) (h : c.isAlpha = true) :
    digitVal? 10 c = none := by
  rw [Char.isAlpha, Bool.or_eq_true, Char.isLower, Char.isUpper] at h
  simp only [Bool.and_eq_true, decide_eq_true_eq] at h
  have hnat : (65 ≤ c.toNat ∧ c.toNat ≤ 90) ∨ (97 ≤ c.toNat ∧ c.toNat ≤ 122) := by
    rcases h with ⟨h1, h2⟩ | ⟨h1, h2⟩
    · exact Or.inl ⟨h1, h2⟩
    · exact Or.inr ⟨h1, h2⟩
  unfold digitVal? hexDigitVal?
  have h9 : ¬('0' ≤ c ∧ c ≤ '9') := by
    rintro ⟨-, hc⟩
    have hc' : c.toNat ≤ 57 := hc
    omega
  rw [if_neg h9]
  by_cases ha : 'a' ≤ c ∧ c ≤ 'f'
  · rw [if_pos ha]
    have h1 : 97 ≤ c.toNat := ha.1
    show (if c.toNat - 87 < 10 then some (c.toNat - 87) else none) = none
    rw [if_neg (by omega)]
  · rw [if_neg ha]
    by_cases hA : 'A' ≤ c ∧ c ≤ 'F'
    · rw [if_pos hA]
      have h1 : 65 ≤ c.toNat := hA.1
      show (if c.toNat - 55 < 10 then some (c.toNat - 55) else none) = none
      rw [if_neg (by omega)]
    · rw [if_neg hA]

theorem singleton_toList (c : Char) : (String.singleton c).toList = [c] := rfl

/-! ## The claims -/

/-- C1: the spec's classifier contract demands that right-hand-side text
matching none of the seven value grammars fail with `UnclassifiableValue`;
the code instead returns a `MixedProperty` for such text — an *empty* one
for `@@@` (no sub-grammar matches anywhere) and a partial one for `"a"@@`
(the matches do not cover the text) — because `re.finditer`'s iterator and
the `MixedProperty` instance are both always truthy, which makes
`MixedProperty.from_string`'s `return None` branch and the final
`raise ValueError` of the chain unreachable. -/
theorem C1_unclassifiable_returns_mixed_code_bug :
    classifyValue "@@@" = .ok (.mixed []) ∧
      classifyValue "\"a\"@@" = .ok (.mixed [some (.str "a")]) :=
  ⟨rfl, rfl⟩

/-- C2: `set_value` with a value of the matching kind is supposed to append
a record carrying the new value and update `current_value`; the source's
`self._value = self._value` discards the new value, and the appended
`ValueElement` carries the old one.  Concretely: a property holding
`StringProperty "a")` reassigned to `StringProperty "b"` still holds `"a"`,
and its new history record also holds `"a"`. -/
theorem C2_set_value_discards_new_value_code_bug :
    (DeviceTreeNodeProperty.mkNew "x" (.str "a") [1, 1] [0, 1] [4, 7]).set_value
        (.str "b") [2, 2] [10, 11] [14, 17] =
      .ok { name := "x", value := .str "a",
            history_list := [⟨.str "a", [1, 1], [0, 1], [4, 7]⟩,
                             ⟨.str "a", [2, 2], [10, 11], [14, 17]⟩] } ∧
      NodePropertyValue.str "a" ≠ NodePropertyValue.str "b" :=
  ⟨rfl, by simp⟩

/-- C3 counterexample: the value `[0x01 0x02 0xAA]` is *not* classified as
the bare `ByteArrayValue([1,2,170])`. -/
theorem C3_byte_array_not_bare_counterexample :
    ¬ classifyValue "[0x01 0x02 0xAA]" = .ok (.binary [1, 2, 170]) := by
  rw [show classifyValue "[0x01 0x02 0xAA]" =
    .ok (.mixed [some (.binary [1, 2, 170])]) from rfl]
  simp

/-- C3 (amended): `[0x01 0x02 0xAA]` is classified as a `MixedValue` holding
the single `ByteArrayValue([1,2,170])`: the classification chain of
`parse_device_tree` has no bare byte-array step, so a square-bracket value
falls through to `MixedProperty`, which parses it with
`BinaryProperty.from_string` and boxes the result. -/
theorem C3_byte_array_boxed_in_mixed :
    classifyValue "[0x01 0x02 0xAA]" = .ok (.mixed [some (.binary [1, 2, 170])]) :=
  rfl

/-- C4: on the claim's literal top-level input `&foo { bar; };` (with the
mandatory root present) the parse *crashes* with `ValueError('deu ruim')`,
because the fragment's close `};` is preceded by a space; and even with the
body reformatted so that every statement sits on its own line, the fragment
node is named `foo`, not `&foo` — the scanner's capture group strips the
`&`, contradicting the constructor's documented contract that an overlay
node's name is the full `&name`.  The marker property `bar`, `label = None`
and `is_overlay_fragment = true` do come out as claimed. -/
theorem C4_overlay_fragment_code_bug :
    parse_device_tree "/ \x7b\n\x7d;\n&foo \x7b bar; \x7d;\n" = .error .deuRuim ∧
      (parse_device_tree "/ \x7b\n\x7d;\n&foo \x7b\nbar;\n\x7d;\n" |>.map fun r =>
          (r.1, r.2.map fun nd => (nd.name, nd.is_overlay, nd.phandle, nd.parentIdx,
            nd.properties.map fun p => (p.1, p.2.value)))) =
        .ok ([0, 1], [("/", false, none, none, []),
                      ("foo", true, none, none, [("bar", .emptyProp)])]) :=
  ⟨rfl, rfl⟩

/-- C5: a `};` preceded by spaces is *rejected*, not processed as a close:
the scanner's close alternative ` *};` captures the spaces into the match
text, and the builder accepts a close only when the whole match text is
exactly `};`, so `/ {` followed by a space-indented `};` raises
`ValueError('deu ruim')`.  A close at the start of a line (or after a tab,
which the pattern's literal space does not match, leaving the match to
start at the `}`) is processed normally. -/
theorem C5_close_preceded_by_spaces_code_bug :
    parse_device_tree "/ \x7b\n  \x7d;" = .error .deuRuim ∧
      (parse_device_tree "/ \x7b\n\x7d;" |>.map fun r =>
          r.2.map fun nd => (nd.name, nd.node_span)) = .ok [("/", (3, 4))] ∧
      (parse_device_tree "/ \x7b\n\t\x7d;" |>.map fun r =>
          r.2.map fun nd => (nd.name, nd.node_span)) = .ok [("/", (3, 5))] :=
  ⟨rfl, rfl, rfl⟩

/-- C6: the value `<0x01 &foo BAR (BAZ | 0x2)>` classifies as a `CellValue`
whose elements are, in order, the hex integer 1, the phandle reference
`&foo`, the macro reference `BAR`, and the macro expression with raw text
`(BAZ | 0x2)` referencing exactly `BAZ`. -/
theorem C6_cell_value_precedence :
    classifyValue "<0x01 &foo BAR (BAZ | 0x2)>" =
      .ok (.cell [.int ⟨1, .hex⟩, .phandle ⟨"&foo"⟩, .macroRef ⟨"BAR"⟩,
                  .expr ⟨"(BAZ | 0x2)", [some ⟨"BAZ"⟩]⟩]) :=
  rfl

/-- C7 counterexample: re-rendering does not reproduce every original
literal character for character — `0x1f` parses to magnitude 31 with hex
radix, but re-renders as `0x1F`. -/
theorem C7_rerender_not_verbatim_counterexample :
    Integer.from_string "0x1f" = .ok ⟨31, .hex⟩ ∧
      (Integer.mk 31 .hex).original_string = "0x1F" ∧
      (Integer.mk 31 .hex).original_string ≠ "0x1f" :=
  ⟨rfl, rfl, by decide⟩

/-- C7 (amended): for every literal the parser accepts, the radix is
recorded from the prefix (`0x`/`0X` → hex, `0b`/`0B` → bin, else dec), and
re-rendering is radix-stable in the round-trip sense: re-parsing the
rendered literal yields the same magnitude and the same radix.  The
rendering is the canonical form (lowercase prefix, uppercase hex digits, no
leading zeros), so it reproduces the original character for character
exactly when the original is canonically written — as in the spec's
examples `0x1F` and `31` — but not in general. -/
theorem C7_radix_recorded_and_roundtrip (s : String) (i : Integer)
    (h : Integer.from_string s = .ok i) :
    i.original_base = radixOfPrefix s ∧
      Integer.from_string i.original_string = .ok i :=
  ⟨Integer_radix_rule s i h, Integer_roundtrip i⟩

/-- C7 witness: the amended claim at the spec's own example `0x1F`. -/
theorem C7_radix_recorded_and_roundtrip_witness :
    (Integer.mk 31 .hex).original_base = radixOfPrefix "0x1F" ∧
      Integer.from_string (Integer.mk 31 .hex).original_string = .ok ⟨31, .hex⟩ :=
  C7_radix_recorded_and_roundtrip "0x1F" ⟨31, .hex⟩ rfl

/-- C8: assigning a property key that already exists on a node fails with
the duplicate-key `KeyError` regardless of the new value, and nothing is
written: `add_property` raises before touching the map, so the node (and in
particular its existing entry for that key) is unchanged by the failed
assignment. -/
theorem C8_duplicate_property_rejected (nd : DeviceTreeNode) (name : String)
    (value : NodePropertyValue) (line_number : List Int)
    (key_span value_span : List Nat)
    (h : (nd.properties.lookup name).isSome = true) :
    nd.add_property name value line_number key_span value_span =
      .error (.duplicateProperty name) := by
  unfold DeviceTreeNode.add_property
  rw [if_pos h]

/-- C8 witness: a node holding `x` rejects a second assignment of `x`. -/
theorem C8_duplicate_property_rejected_witness :
    DeviceTreeNode.add_property
        { name := "n",
          properties := [("x", DeviceTreeNodeProperty.mkNew "x" .emptyProp
            [1, 1] [0, 1] [0, 1])] }
        "x" (.str "v") [2, 2] [5, 6] [9, 10] =
      .error (.duplicateProperty "x") :=
  C8_duplicate_property_rejected _ "x" (.str "v") [2, 2] [5, 6] [9, 10] rfl

/-- C10: a cell token that is one single (ASCII) letter is never a
`MacroRef` — the macro grammar `[a-zA-Z_][a-zA-Z0-9_]+` needs two
characters — and it fails every other cell-element grammar too, so the cell
element parser raises the unrecognized-token error on it, whatever the
placeholder table holds. -/
theorem C10_single_letter_cell_token_rejected (c : Char) (h : c.isAlpha = true) :
    CMacro.check_name (String.singleton c) = none ∧
      ∀ place_holders, classifyCellToken place_holders (String.singleton c) =
        .error (.unrecognizedCellToken (String.singleton c)) := by
  have hmac : CMacro.check_name (String.singleton c) = none := by
    unfold CMacro.check_name
    rw [singleton_toList]
    simp
  refine ⟨hmac, fun place_holders => ?_⟩
  have hint : Integer.from_string (String.singleton c) =
      .error (.invalidNumericLiteral (String.singleton c)) := by
    unfold Integer.from_string
    rw [singleton_toList]
    have hx : ¬([c].take 2 = ['0', 'x'] ∨ [c].take 2 = ['0', 'X']) := by
      simp [List.take]
    have hb : ¬([c].take 2 = ['0', 'b'] ∨ [c].take 2 = ['0', 'B']) := by
      simp [List.take]
    rw [if_neg hx, if_neg hb]
    have : parseDigits? 10 [c] = none := by
      unfold parseDigits?
      rw [if_neg (by simp)]
      show digitStep 10 (some 0) c = none
      unfold digitStep
      rw [digitVal10_none_of_alpha c h]
    rw [this]
  have hph : Phandle.from_string (String.singleton c) = none := by
    unfold Phandle.from_string Phandle.check_name
    rw [singleton_toList]
    have hc : c ≠ '&' := by
      intro hc
      subst hc
      simp [Char.isAlpha, Char.isLower, Char.isUpper] at h
    split
    · rename_i heq
      injection heq with h1 h2
      exact absurd h1 hc
    · rfl
  unfold classifyCellToken
  rw [hint, hph]
  rw [show CMacro.from_string (String.singleton c) = none by
    unfold CMacro.from_string
    rw [hmac]
    rfl]
  have hshape : hasPlaceholderShape (String.singleton c).toList = false := by
    rw [singleton_toList]
    have hc : c ≠ '{' := by
      intro hc
      subst hc
      simp [Char.isAlpha, Char.isLower, Char.isUpper] at h
    unfold hasPlaceholderShape
    split
    · rename_i heq
      injection heq with h1 h2
      exact absurd h1 hc
    · rfl
  rw [hshape]
  simp

/-! ### C9: the span-nesting invariant of the builder

The scanner's matches come in non-overlapping left-to-right order; the
builder invariant says that every node created so far has
`node_span.start = properties_span.start ≥ 0`, both bounded by the scan
position, and that whichever span ends are already set respect
`properties_span.start ≤ properties_span.end ≤ node_span.end`. -/

/-- The matches are ordered: each starts at or after the floor, spans
forward, and chains the rest from its stop. -/
def Chained : Nat → List ScopeMatch → Prop
  | _, [] => True
  | p, m :: ms => p ≤ m.start ∧ m.start ≤ m.stop ∧ Chained m.stop ms

theorem Chained_mono {p q : Nat} (h : p ≤ q) :
    ∀ {ms : List ScopeMatch}, Chained q ms → Chained p ms
  | [], _ => trivial
  | m :: ms, ⟨h1, h2, h3⟩ => ⟨le_trans h h1, h2, h3⟩

theorem scanFrom_chained : ∀ fuel (cs : List Char) (p : Nat),
    Chained p (scanFrom fuel cs p) := by
  intro fuel
  induction fuel with
  | zero => intro cs p; cases cs <;> simp [scanFrom, Chained]
  | succ fuel ih =>
      intro cs p
      cases cs with
      | nil => simp [scanFrom, Chained]
      | cons c rest =>
          rw [scanFrom]
          cases h : tryMatchAt (c :: rest) with
          | none => exact Chained_mono (by omega) (ih rest (p + 1))
          | some r =>
              obtain ⟨n, ev⟩ := r
              exact ⟨le_refl p, Nat.le_add_right p n, ih _ (p + n)⟩

/-- What holds of every node in the arena while the scan position (floor of
every future match) is `P`. -/
def NodeOk (P : Int) (nd : DeviceTreeNode) : Prop :=
  nd.node_span.1 = nd.properties_span.1 ∧
  0 ≤ nd.node_span.1 ∧ nd.node_span.1 ≤ P ∧
  (nd.properties_span.2 = -1 ∨
    (nd.properties_span.1 ≤ nd.properties_span.2 ∧ nd.properties_span.2 ≤ P)) ∧
  (nd.node_span.2 = -1 ∨
    (nd.properties_span.2 ≠ -1 ∧ nd.properties_span.2 ≤ nd.node_span.2 ∧
      nd.node_span.2 ≤ P))

theorem NodeOk_mono {P Q : Int} (h : P ≤ Q) {nd : DeviceTreeNode}
    (hnd : NodeOk P nd) : NodeOk Q nd := by
  obtain ⟨h1, h2, h3, h4, h5⟩ := hnd
  refine ⟨h1, h2, le_trans h3 h, ?_, ?_⟩
  · rcases h4 with h4 | ⟨h4a, h4b⟩
    · exact Or.inl h4
    · exact Or.inr ⟨h4a, le_trans h4b h⟩
  · rcases h5 with h5 | ⟨h5a, h5b, h5c⟩
    · exact Or.inl h5
    · exact Or.inr ⟨h5a, h5b, le_trans h5c h⟩

theorem stepMatch_nodes (st : BState) (m : ScopeMatch) (st' : BState)
    (hm : m.start ≤ m.stop)
    (hinv : ∀ nd ∈ st.arena, NodeOk (m.start : Int) nd)
    (hstep : stepMatch st m = .ok st') :
    ∀ nd ∈ st'.arena, NodeOk (m.stop : Int) nd := by
  have hcast : (m.start : Int) ≤ (m.stop : Int) := by exact_mod_cast hm
  have hzero : (0 : Int) ≤ (m.stop : Int) := by positivity
  unfold stepMatch at hstep
  split at hstep
  case _ phandle_only phandle name at_ =>
    split at hstep
    case _ =>
      -- phandle_only = none
      split at hstep
      · -- name = some "/": a fresh root node is appended
        cases hstep
        intro nd hnd
        rcases List.mem_append.mp hnd with h | h
        · exact NodeOk_mono hcast (hinv nd h)
        · rcases List.mem_singleton.mp h with rfl
          exact ⟨rfl, hzero, le_refl _, Or.inl rfl, Or.inl rfl⟩
      · -- a plain child node
        split at hstep
        · cases hstep
        · rename_i j hcur
          split at hstep
          · cases hstep
          · rename_i parent hget
            cases hstep
            intro nd hnd
            have hparent : NodeOk (m.start : Int) parent :=
              hinv parent (List.get?_mem hget)
            obtain ⟨p1, p2, p3, p4, p5⟩ := hparent
            rcases List.mem_append.mp hnd with h | h
            · rcases List.mem_or_eq_of_mem_set h with h | rfl
              · exact NodeOk_mono hcast (hinv nd h)
              · by_cases hpe : parent.properties_span.2 = -1
                · rw [if_pos hpe]
                  have h5' : parent.node_span.2 = -1 := by
                    rcases p5 with h5 | ⟨h5a, -⟩
                    · exact h5
                    · exact absurd hpe h5a
                  refine ⟨p1, p2, le_trans p3 hcast, ?_, ?_⟩
                  · refine Or.inr ⟨?_, hcast⟩
                    rw [← p1]; exact p3
                  · exact Or.inl h5'
                · rw [if_neg hpe]
                  exact NodeOk_mono hcast ⟨p1, p2, p3, p4, p5⟩
            · rcases List.mem_singleton.mp h with rfl
              exact ⟨rfl, hzero, le_refl _, Or.inl rfl, Or.inl rfl⟩
    case _ po =>
      -- an overlay node
      split at hstep
      · cases hstep
      · cases hstep
        intro nd hnd
        rcases List.mem_append.mp hnd with h | h
        · exact NodeOk_mono hcast (hinv nd h)
        · rcases List.mem_singleton.mp h with rfl
          exact ⟨rfl, hzero, le_refl _, Or.inl rfl, Or.inl rfl⟩
  case _ leading =>
    split at hstep
    · -- leading = 0: a proper close
      split at hstep
      · cases hstep
      · rename_i j hcur
        split at hstep
        · cases hstep
        · rename_i nd0 hget
          cases hstep
          intro nd hnd
          have hnd0 : NodeOk (m.start : Int) nd0 :=
            hinv nd0 (List.get?_mem hget)
          obtain ⟨p1, p2, p3, p4, p5⟩ := hnd0
          rcases List.mem_or_eq_of_mem_set hnd with h | rfl
          · exact NodeOk_mono hcast (hinv nd h)
          · by_cases hpe : nd0.properties_span.2 = -1
            · rw [if_pos hpe]
              refine ⟨p1, p2, le_trans p3 hcast, ?_, ?_⟩
              · refine Or.inr ⟨?_, hcast⟩
                rw [← p1]; exact p3
              · refine Or.inr ⟨?_, le_refl _, hcast⟩
                show ¬(m.start : Int) = -1
                omega
            · rw [if_neg hpe]
              rcases p4 with h4 | ⟨h4a, h4b⟩
              · exact absurd h4 hpe
              · exact ⟨p1, p2, le_trans p3 hcast,
                  Or.inr ⟨h4a, le_trans h4b hcast⟩,
                  Or.inr ⟨hpe, h4b, hcast⟩⟩
    · cases hstep

theorem buildLoop_nodes : ∀ (ms : List ScopeMatch) (st st' : BState) (p : Nat),
    Chained p ms → (∀ nd ∈ st.arena, NodeOk (p : Int) nd) →
    buildLoop ms st = .ok st' →
    ∃ q : Nat, p ≤ q ∧ ∀ nd ∈ st'.arena, NodeOk (q : Int) nd := by
  intro ms
  induction ms with
  | nil =>
      intro st st' p hch hinv hrun
      cases hrun
      exact ⟨p, le_refl _, hinv⟩
  | cons m ms ih =>
      intro st st' p hch hinv hrun
      obtain ⟨hc1, hc2, hc3⟩ := hch
      rw [buildLoop] at hrun
      cases hstep : stepMatch st m with
      | error e => rw [hstep] at hrun; cases hrun
      | ok st1 =>
          rw [hstep] at hrun
          have hinv1 : ∀ nd ∈ st.arena, NodeOk (m.start : Int) nd :=
            fun nd h => NodeOk_mono (by exact_mod_cast hc1) (hinv nd h)
          have hstop := stepMatch_nodes st m st1 hc2 hinv1 hstep
          obtain ⟨q, hq1, hq2⟩ := ih st1 st' m.stop hc3 hstop hrun
          exact ⟨q, by omega, hq2⟩

/-- `add_property` only changes the `properties` field. -/
theorem add_property_spans (nd : DeviceTreeNode) (name : String)
    (value : NodePropertyValue) (line_number : List Int)
    (key_span value_span : List Nat) (nd' : DeviceTreeNode)
    (h : nd.add_property name value line_number key_span value_span = .ok nd') :
    nd'.node_span = nd.node_span ∧ nd'.properties_span = nd.properties_span := by
  unfold DeviceTreeNode.add_property at h
  by_cases hdup : (nd.properties.lookup name).isSome = true
  · rw [if_pos hdup] at h; cases h
  · rw [if_neg hdup] at h
    cases h
    exact ⟨rfl, rfl⟩

theorem foldlM_spans {β : Type} (f : DeviceTreeNode → β → Except Err DeviceTreeNode)
    (hf : ∀ a x b, f a x = .ok b →
      b.node_span = a.node_span ∧ b.properties_span = a.properties_span) :
    ∀ (l : List β) (a b : DeviceTreeNode), l.foldlM f a = .ok b →
      b.node_span = a.node_span ∧ b.properties_span = a.properties_span := by
  intro l
  induction l with
  | nil =>
      intro a b h
      cases h
      exact ⟨rfl, rfl⟩
  | cons x l ih =>
      intro a b h
      rw [List.foldlM_cons] at h
      cases hx : f a x with
      | error e => rw [hx] at h; cases h
      | ok a1 =>
          rw [hx] at h
          obtain ⟨e1, e2⟩ := hf a x a1 hx
          obtain ⟨e3, e4⟩ := ih a1 b h
          exact ⟨e3.trans e1, e4.trans e2⟩

/-- Destructure a successful `Except` bind. -/
theorem exceptBind_ok {α β : Type} {x : Except Err α} {f : α → Except Err β} {b : β}
    (h : (x >>= f) = .ok b) : ∃ a, x = .ok a ∧ f a = .ok b := by
  cases x with
  | error e => simp [Bind.bind, Except.bind] at h
  | ok a =>
      refine ⟨a, rfl, ?_⟩
      simpa [Bind.bind, Except.bind] using h

theorem extractNode_spans (contents : List Char) (nd nd' : DeviceTreeNode)
    (h : extractNode contents nd = .ok nd') :
    nd'.node_span = nd.node_span ∧ nd'.properties_span = nd.properties_span := by
  unfold extractNode at h
  obtain ⟨nd1, h1, h⟩ := exceptBind_ok h
  obtain ⟨nd2, h2, h⟩ := exceptBind_ok h
  have hpure : nd2 = nd' := by
    simpa [pure, Except.pure] using h
  subst hpure
  have s1 := foldlM_spans _ (fun a kv b hb => by
    obtain ⟨v, hv, hb⟩ := exceptBind_ok hb
    exact add_property_spans _ _ _ _ _ _ _ hb) _ nd nd1 h1
  have s2 := foldlM_spans _ (fun a em b hb =>
    add_property_spans _ _ _ _ _ _ _ hb) _ nd1 nd2 h2
  exact ⟨s2.1.trans s1.1, s2.2.trans s1.2⟩

theorem mapExtract_mem_ok (contents : List Char) :
    ∀ (l : List DeviceTreeNode) (l' : List DeviceTreeNode),
      mapExtract contents l = .ok l' →
      ∀ b ∈ l', ∃ a ∈ l, extractNode contents a = .ok b := by
  intro l
  induction l with
  | nil =>
      intro l' h b hb
      cases h
      cases hb
  | cons x l ih =>
      intro l' h b hb
      unfold mapExtract at h
      obtain ⟨y, hy, h⟩ := exceptBind_ok h
      obtain ⟨ys, hys, h⟩ := exceptBind_ok h
      have hpure : y :: ys = l' := by
        simpa [pure, Except.pure] using h
      subst hpure
      rcases List.mem_cons.mp hb with rfl | hb
      · exact ⟨x, List.mem_cons_self x l, hy⟩
      · obtain ⟨a, ha, hfa⟩ := ih ys hys b hb
        exact ⟨a, List.mem_cons_of_mem x ha, hfa⟩

/-- C9: in a successfully parsed buffer, every node the builder closed — on
a well-formed buffer, every node — satisfies
`node_span.start = properties_span.start ≤ properties_span.end ≤
node_span.end`, with `node_span.start ≥ 0`; the closed-node hypothesis is
exactly well-formedness, since the source never checks at end of scan that
all scopes were closed. -/
theorem C9_span_nesting (contents : String) (roots : List Nat)
    (arena : List DeviceTreeNode)
    (hp : parse_device_tree contents = .ok (roots, arena))
    (hclosed : ∀ nd ∈ arena, nd.node_span.2 ≠ -1) :
    ∀ nd ∈ arena, 0 ≤ nd.node_span.1 ∧
      nd.node_span.1 ≤ nd.properties_span.1 ∧
      nd.properties_span.1 ≤ nd.properties_span.2 ∧
      nd.properties_span.2 ≤ nd.node_span.2 := by
  unfold parse_device_tree at hp
  by_cases hroot : containsSub contents.toList ['/', ' ', '{'] = true
  · rw [if_pos hroot] at hp
    obtain ⟨st, hb, hp⟩ := exceptBind_ok hp
    obtain ⟨arena', hm, hp⟩ := exceptBind_ok hp
    have hpair : (st.roots, arena') = (roots, arena) := by
      simpa [pure, Except.pure] using hp
    have harena : arena' = arena := congrArg Prod.snd hpair
    subst harena
    obtain ⟨q, -, hq⟩ := buildLoop_nodes _ _ _ 0
      (scanFrom_chained _ _ 0) (by intro nd h; cases h) hb
    intro nd hnd
    obtain ⟨nd0, hnd0, hext⟩ := mapExtract_mem_ok _ _ _ hm nd hnd
    obtain ⟨e1, e2⟩ := extractNode_spans _ _ _ hext
    have hok := hq nd0 hnd0
    obtain ⟨k1, k2, k3, k4, k5⟩ := hok
    have hcl : nd.node_span.2 ≠ -1 := hclosed nd hnd
    rw [e1] at hcl ⊢
    rw [e2]
    rcases k5 with h5 | ⟨h5a, h5b, h5c⟩
    · exact absurd h5 hcl
    · rcases k4 with h4 | ⟨h4a, h4b⟩
      · exact absurd h4 h5a
      · exact ⟨k2, le_of_eq k1, h4a, h5b⟩
  · rw [if_neg hroot] at hp
    cases hp

/-- C9 witness: the root-only buffer, whose single node has
`node_span = properties_span = (3, 4)`. -/
theorem C9_span_nesting_witness :
    0 ≤ (DeviceTreeNode.mk "/" false none none none [] (3, 4) (3, 4) []).node_span.1 ∧
      (DeviceTreeNode.mk "/" false none none none [] (3, 4) (3, 4) []).node_span.1 ≤
        (DeviceTreeNode.mk "/" false none none none [] (3, 4) (3, 4) []).properties_span.1 ∧
      (DeviceTreeNode.mk "/" false none none none [] (3, 4) (3, 4) []).properties_span.1 ≤
        (DeviceTreeNode.mk "/" false none none none [] (3, 4) (3, 4) []).properties_span.2 ∧
      (DeviceTreeNode.mk "/" false none none none [] (3, 4) (3, 4) []).properties_span.2 ≤
        (DeviceTreeNode.mk "/" false none none none [] (3, 4) (3, 4) []).node_span.2 :=
  C9_span_nesting "/ \x7b\n\x7d;" [0]
    [DeviceTreeNode.mk "/" false none none none [] (3, 4) (3, 4) []]
    rfl (by decide) _ (List.mem_singleton.mpr rfl)

/-- C10 witness: the single-letter token `A` with an empty placeholder
table. -/
theorem C10_single_letter_cell_token_rejected_witness :
    CMacro.check_name (String.singleton 'A') = none ∧
      classifyCellToken [] (String.singleton 'A') =
        .error (.unrecognizedCellToken (String.singleton 'A')) :=
  ⟨(C10_single_letter_cell_token_rejected 'A' rfl).1,
   (C10_single_letter_cell_token_rejected 'A' rfl).2 []⟩

end DTR
